import Mathlib

/-!
Verification development for the Authress login SDK (browser session client).

The JavaScript sources `src/index.js` and `src/jwtManager.js` are shallowly
embedded below.  JavaScript strings are modelled as `List Char`; JavaScript
values that can be `null`/`undefined` or absent are modelled with `Option`
(fallible code returns `Option`/`Except`, and a JS function that returns a
falsy sentinel such as `null`, `undefined`, `false` or the empty string where
its callers only test truthiness is modelled as returning `none`).
Machine time (`Date.now()`) is a `Nat` of milliseconds.
-/

/-- JavaScript strings are modelled as lists of characters. -/
abbrev JStr := List Char

/-- Embed a Lean string literal as a modelled JavaScript string. -/
def cs (s : String) : JStr := s.toList

/-- The opening-brace character, written via its code point. -/
def lbraceC : Char := Char.ofNat 123

/-- The closing-brace character, written via its code point. -/
def rbraceC : Char := Char.ofNat 125

/-- JSON values as produced by `JSON.parse`.  Arrays carry an extra property
bag so that later JS property assignment on an array value can be modelled;
`JSON.parse` itself always produces arrays with an empty property bag.
JSON numbers are modelled as integers: the claims under verification only
involve integral fields (`exp`, `expires_in`), and fractional literals are
rejected by the embedded parser. -/
inductive Json where
  | null
  | bool (b : Bool)
  | num (n : Int)
  | str (s : JStr)
  | arr (elems : List Json) (props : List (JStr × Json))
  | obj (fields : List (JStr × Json))

/-- JavaScript truthiness of a JSON value. -/
def truthy (j : Json) : Bool :=
  match j with
  | Json.null => false
  | Json.bool b => b
  | Json.num n => decide (n ≠ 0)
  | Json.str s => decide (s ≠ [])
  | Json.arr _ _ => true
  | Json.obj _ => true

/-- Truthiness of a possibly-`undefined` JSON value. -/
def truthyOptJson (o : Option Json) : Bool :=
  match o with
  | some j => truthy j
  | none => false

/-- Last-binding-wins association lookup: `JSON.parse` keeps the last
occurrence of a duplicated key, which we model by storing members in order
and looking up the last match. -/
def lookupLast (fs : List (JStr × Json)) (k : JStr) : Option Json :=
  match fs with
  | [] => none
  | (k2, v) :: rest =>
    match lookupLast rest k with
    | some r => some r
    | none => if k2 = k then some v else none

/-- JavaScript property read `j[k]`; `undefined` is `none`.  Primitives have
no own properties that matter here. -/
def jsGetField (j : Json) (k : JStr) : Option Json :=
  match j with
  | Json.obj fs => lookupLast fs k
  | Json.arr _ props => lookupLast props k
  | _ => none

/-- Test `o === false` for a possibly-`undefined` JSON value. -/
def isFalseJson (o : Option Json) : Bool :=
  match o with
  | some (Json.bool false) => true
  | _ => false

/-- Strict equality `j === p` between a JSON value (left) and a
string-or-`null` (right): true exactly when the left side is a string equal
to the right-side string. -/
def jsStrictEqStr (j : Option Json) (p : Option JStr) : Bool :=
  match j, p with
  | some (Json.str s), some q => decide (s = q)
  | _, _ => false

/-- Decimal digits accumulate to a natural number. -/
def digitsToNat (s : JStr) : Nat :=
  s.foldl (fun acc c => acc * 10 + (c.toNat - 48)) 0

/-- Decimal digit test. -/
def isDigitC (c : Char) : Bool := decide ('0' ≤ c ∧ c ≤ '9')

/-- JSON whitespace test. -/
def isWsC (c : Char) : Bool := c == ' ' || c == '\t' || c == '\n' || c == '\r'

/-- Drop leading JSON whitespace. -/
def skipWs (s : JStr) : JStr := s.dropWhile isWsC

/-- Trim whitespace at both ends. -/
def trimWs (s : JStr) : JStr := ((s.dropWhile isWsC).reverse.dropWhile isWsC).reverse

/-- JavaScript `Number(string)` restricted to the integral case: trimmed
empty input is `0`, an optional sign followed by decimal digits is that
integer, anything else is NaN (`none`).  Fractional or exponent forms are
not modelled (no claim exercises them). -/
def strToNumber (s : JStr) : Option Int :=
  let t := trimWs s
  if t = [] then some 0
  else
    let p := match t with
      | '-' :: r => (true, r)
      | '+' :: r => (false, r)
      | r => (false, r)
    if p.2 ≠ [] ∧ p.2.all isDigitC then
      some (if p.1 then -(digitsToNat p.2 : Int) else (digitsToNat p.2 : Int))
    else none

/-- JavaScript numeric coercion of a possibly-`undefined` JSON value
(`none` plays NaN).  Array/object coercion is approximated as NaN; no claim
exercises it. -/
def jsNumberOf : Option Json → Option Int
  | none => none
  | some Json.null => some 0
  | some (Json.bool b) => some (if b then 1 else 0)
  | some (Json.num n) => some n
  | some (Json.str s) => strToNumber s
  | some (Json.arr _ _) => none
  | some (Json.obj _) => none

/-- JavaScript `String.prototype.split(sep)` on a single-character
separator; always returns at least one piece. -/
def splitOnChar (sep : Char) : JStr → List JStr
  | [] => [[]]
  | c :: rest =>
    if c = sep then [] :: splitOnChar sep rest
    else
      match splitOnChar sep rest with
      | s :: ss => (c :: s) :: ss
      | [] => [[c]]

theorem splitOnChar_ne_nil (sep : Char) (s : JStr) : splitOnChar sep s ≠ [] := by
  induction s with
  | nil => simp [splitOnChar]
  | cons c rest ih =>
    simp only [splitOnChar]
    split
    · simp
    · cases h : splitOnChar sep rest with
      | nil => exact absurd h ih
      | cons a as => simp [h]

/-- JSON escape characters after a backslash. -/
def escapeChar (e : Char) : Option Char :=
  if e = '"' then some '"'
  else if e = '\\' then some '\\'
  else if e = '/' then some '/'
  else if e = 'b' then some (Char.ofNat 8)
  else if e = 'f' then some (Char.ofNat 12)
  else if e = 'n' then some '\n'
  else if e = 'r' then some '\r'
  else if e = 't' then some '\t'
  else none

/-- Hexadecimal digit value. -/
def hexVal (c : Char) : Option Nat :=
  if '0' ≤ c ∧ c ≤ '9' then some (c.toNat - 48)
  else if 'a' ≤ c ∧ c ≤ 'f' then some (c.toNat - 97 + 10)
  else if 'A' ≤ c ∧ c ≤ 'F' then some (c.toNat - 65 + 10)
  else none

/-- Parse an integral JSON number from the head of the input. -/
def parseNumber (s : JStr) : Option (Json × JStr) :=
  let p := match s with
    | '-' :: r => (true, r)
    | r => (false, r)
  let digits := p.2.takeWhile isDigitC
  let rest := p.2.dropWhile isDigitC
  if digits = [] then none
  else if 1 < digits.length ∧ digits.headD '0' = '0' then none
  else
    match rest with
    | '.' :: _ => none
    | 'e' :: _ => none
    | 'E' :: _ => none
    | _ => some (Json.num (if p.1 then -(digitsToNat digits : Int) else (digitsToNat digits : Int)), rest)

mutual

/-- Recursive-descent JSON value parser, fuelled. -/
def parseValue : Nat → JStr → Option (Json × JStr)
  | 0, _ => none
  | Nat.succ fuel, s =>
    match skipWs s with
    | 'n' :: 'u' :: 'l' :: 'l' :: r => some (Json.null, r)
    | 't' :: 'r' :: 'u' :: 'e' :: r => some (Json.bool true, r)
    | 'f' :: 'a' :: 'l' :: 's' :: 'e' :: r => some (Json.bool false, r)
    | '"' :: r =>
      match parseStringBody fuel r with
      | some p => some (Json.str p.1, p.2)
      | none => none
    | '[' :: r =>
      match skipWs r with
      | ']' :: rest => some (Json.arr [] [], rest)
      | r2 =>
        match parseElems fuel r2 with
        | some p => some (Json.arr p.1 [], p.2)
        | none => none
    | c :: r =>
      if c = lbraceC then
        match skipWs r with
        | d :: rest =>
          if d = rbraceC then some (Json.obj [], rest)
          else
            match parseMembers fuel (d :: rest) with
            | some p => some (Json.obj p.1, p.2)
            | none => none
        | [] => none
      else if c = '-' || isDigitC c then parseNumber (c :: r)
      else none
    | [] => none

/-- Parse the body of a JSON string literal after the opening quote. -/
def parseStringBody : Nat → JStr → Option (JStr × JStr)
  | 0, _ => none
  | Nat.succ fuel, s =>
    match s with
    | '"' :: r => some ([], r)
    | '\\' :: e :: r =>
      match escapeChar e with
      | some c =>
        match parseStringBody fuel r with
        | some p => some (c :: p.1, p.2)
        | none => none
      | none =>
        if e = 'u' then
          match r with
          | a :: b :: c2 :: d :: r2 =>
            match hexVal a, hexVal b, hexVal c2, hexVal d with
            | some x1, some x2, some x3, some x4 =>
              match parseStringBody fuel r2 with
              | some p => some (Char.ofNat (((x1 * 16 + x2) * 16 + x3) * 16 + x4) :: p.1, p.2)
              | none => none
            | _, _, _, _ => none
          | _ => none
        else none
    | c :: r =>
      if c.toNat < 32 then none
      else
        match parseStringBody fuel r with
        | some p => some (c :: p.1, p.2)
        | none => none
    | [] => none

/-- Parse the elements of a non-empty JSON array after the opening bracket. -/
def parseElems : Nat → JStr → Option (List Json × JStr)
  | 0, _ => none
  | Nat.succ fuel, s =>
    match parseValue fuel s with
    | none => none
    | some p =>
      match skipWs p.2 with
      | ',' :: r2 =>
        match parseElems fuel r2 with
        | some q => some (p.1 :: q.1, q.2)
        | none => none
      | ']' :: r2 => some ([p.1], r2)
      | _ => none

/-- Parse the members of a non-empty JSON object after the opening brace. -/
def parseMembers : Nat → JStr → Option (List (JStr × Json) × JStr)
  | 0, _ => none
  | Nat.succ fuel, s =>
    match skipWs s with
    | '"' :: r =>
      match parseStringBody fuel r with
      | none => none
      | some kp =>
        match skipWs kp.2 with
        | ':' :: r3 =>
          match parseValue fuel r3 with
          | none => none
          | some vp =>
            match skipWs vp.2 with
            | ',' :: r5 =>
              match parseMembers fuel r5 with
              | some q => some ((kp.1, vp.1) :: q.1, q.2)
              | none => none
            | d :: r5 => if d = rbraceC then some ([(kp.1, vp.1)], r5) else none
            | [] => none
        | _ => none
    | _ => none

end

/-- JavaScript `JSON.parse`: parse a complete value, allowing surrounding
whitespace; any leftover input is a syntax error (`none` models the thrown
`SyntaxError`). -/
def jsonParse (s : JStr) : Option Json :=
  match parseValue (2 * s.length + 8) s with
  | some p => if skipWs p.2 = [] then some p.1 else none
  | none => none

/-- Modelled from the spec: the URL-safe base64 decoder collaborator
(`src/base64url.js`, not under `src/` here) -- "decodes URL-safe base64
token segments"; value of one alphabet character. -/
def b64Val (c : Char) : Option Nat :=
  if 'A' ≤ c ∧ c ≤ 'Z' then some (c.toNat - 65)
  else if 'a' ≤ c ∧ c ≤ 'z' then some (c.toNat - 97 + 26)
  else if '0' ≤ c ∧ c ≤ '9' then some (c.toNat - 48 + 52)
  else if c = '-' then some 62
  else if c = '_' then some 63
  else none

/-- Modelled from the spec: base64url chunk decoding, four characters to
three bytes with the usual short final group; a lone trailing character is
invalid. -/
def b64Chunks : JStr → Option (List Nat)
  | [] => some []
  | [_] => none
  | [a, b] =>
    match b64Val a, b64Val b with
    | some va, some vb => some [(va * 4 + vb / 16) % 256]
    | _, _ => none
  | [a, b, c] =>
    match b64Val a, b64Val b, b64Val c with
    | some va, some vb, some vc => some [(va * 4 + vb / 16) % 256, ((vb % 16) * 16 + vc / 4) % 256]
    | _, _, _ => none
  | a :: b :: c :: d :: rest =>
    match b64Val a, b64Val b, b64Val c, b64Val d, b64Chunks rest with
    | some va, some vb, some vc, some vd, some tail =>
      some ((va * 4 + vb / 16) % 256 :: ((vb % 16) * 16 + vc / 4) % 256 :: ((vc % 4) * 64 + vd) % 256 :: tail)
    | _, _, _, _, _ => none

/-- Modelled from the spec: the URL-safe base64 decoder collaborator --
strips optional trailing padding, rejects characters outside the base64url
alphabet, and yields the decoded bytes as characters (`none` models a
thrown decoding error). -/
def base64UrlDecode (s : JStr) : Option JStr :=
  let t := (s.reverse.dropWhile (fun c => c == '=')).reverse
  match b64Chunks t with
  | some bytes => some (bytes.map Char.ofNat)
  | none => none

/-- `jwtManager.decode` (src/jwtManager.js line 4) on a string input:
splits on the dot separator, base64url-decodes segment 1 and parses it as
JSON; every failure path (the falsy token, a missing segment handed to the
decoder, an invalid segment, unparsable payload) is caught and becomes
`none`. -/
def jwtDecodeStr (token : JStr) : Option Json :=
  if token = [] then none
  else
    match (splitOnChar '.' token).get? 1 with
    | none => none
    | some seg =>
      match base64UrlDecode seg with
      | some payload => jsonParse payload
      | none => none

/-- `jwtManager.decodeFull` (src/jwtManager.js line 12): both the header
(segment 0) and payload (segment 1) must decode and parse, else `none`. -/
def jwtDecodeFullStr (token : JStr) : Option (Json × Json) :=
  if token = [] then none
  else
    match (splitOnChar '.' token).get? 0, (splitOnChar '.' token).get? 1 with
    | some s0, some s1 =>
      match base64UrlDecode s0, base64UrlDecode s1 with
      | some h, some p =>
        match jsonParse h, jsonParse p with
        | some hj, some pj => some (hj, pj)
        | _, _ => none
      | _, _ => none
    | _, _ => none

/-- `jwtManager.decode` applied to an arbitrary stored JS value: only a
non-empty string can decode (a non-string truthy value throws inside the
`try` and is caught; a falsy value is returned as-is, collapsing to
`none`). -/
def jwtDecode (t : Option Json) : Option Json :=
  match t with
  | some (Json.str s) => jwtDecodeStr s
  | _ => none

/-- The browser window location fields used by the client. -/
structure WinLocation where
  hostname : JStr
  host : JStr
  protocol : JStr
deriving DecidableEq

/-- `isLocalHost` (src/index.js line 45): true when a window location exists
and its hostname is a loopback name. -/
def isLocalHostW (w : Option WinLocation) : Bool :=
  match w with
  | some l => decide (l.hostname = cs "localhost" ∨ l.hostname = cs "127.0.0.1")
  | none => false

/-- JavaScript `toLowerCase`, character-wise. -/
def toLowerJ (s : JStr) : JStr := s.map Char.toLower

/-- JavaScript `Array.prototype.join` on the dot separator. -/
def joinDot : List JStr → JStr
  | [] => []
  | [x] => x
  | x :: y :: xs => x ++ '.' :: joinDot (y :: xs)

/-- The label-matching loop of `getMatchingDomainInfo`
(src/index.js lines 69-78): walk the reversed provider labels, extending the
matched accumulator while the joined candidate equals the joined prefix of
the reversed page labels (`take` is lodash `take`). -/
def matchSegmentsLoop (appUrlList : List JStr) : List JStr → List JStr → List JStr
  | [], matched => matched
  | seg :: rest, matched =>
    if joinDot (matched ++ [seg]) = joinDot (appUrlList.take (matched.length + 1))
    then matchSegmentsLoop appUrlList rest (matched ++ [seg])
    else matched

/-- `getMatchingDomainInfo` (src/index.js lines 50-90), taking the provider
host (the `host` component of the parsed host URL) and the optional window
location. -/
def getMatchingDomainInfo (w : Option WinLocation) (tokenHost : JStr) : Bool :=
  if isLocalHostW w then false
  else
    match w with
    | none => false
    | some loc =>
      if loc.protocol ≠ cs "https:" then false
      else
        let tokenUrlList := (splitOnChar '.' (toLowerJ tokenHost)).reverse
        let appUrlList := (splitOnChar '.' (toLowerJ loc.host)).reverse
        let reversedMatchSegments := matchSegmentsLoop appUrlList tokenUrlList []
        if reversedMatchSegments.length = tokenUrlList.length ∧ reversedMatchSegments.length = appUrlList.length
        then true
        else if 1 < reversedMatchSegments.length then true
        else false

/-- Length of the common prefix of two label lists (labels matching from
the TLD inward, both lists already reversed). -/
def commonLabels : List JStr → List JStr → Nat
  | t :: ts, a :: as2 => if t = a then commonLabels ts as2 + 1 else 0
  | _, _ => 0

/-- The DomainPolicy decision as the claim states it: false on loopback, a
missing window location or insecure transport; otherwise true exactly when
every reversed provider label matches with equal label counts, or at least
two labels match from the TLD inward. -/
def domainPolicyClaim (w : Option WinLocation) (tokenHost : JStr) : Bool :=
  match w with
  | none => false
  | some loc =>
    if decide (loc.hostname = cs "localhost" ∨ loc.hostname = cs "127.0.0.1") then false
    else if loc.protocol ≠ cs "https:" then false
    else
      let t := (splitOnChar '.' (toLowerJ tokenHost)).reverse
      let a := (splitOnChar '.' (toLowerJ loc.host)).reverse
      let m := commonLabels t a
      decide ((m = t.length ∧ m = a.length) ∨ 2 ≤ m)

theorem joinDot_cons (x : JStr) (l : List JStr) (h : l ≠ []) :
    joinDot (x :: l) = x ++ '.' :: joinDot l := by
  cases l with
  | nil => exact absurd rfl h
  | cons y ys => rfl

theorem joinDot_snoc (xs : List JStr) (a : JStr) :
    joinDot (xs ++ [a]) = if xs = [] then a else joinDot xs ++ '.' :: a := by
  induction xs with
  | nil => rfl
  | cons x ys ih =>
    rw [List.cons_append, joinDot_cons x (ys ++ [a]) (by simp), if_neg (by simp)]
    cases ys with
    | nil => rfl
    | cons y zs =>
      rw [ih, if_neg (by simp), joinDot_cons x (y :: zs) (by simp)]
      simp

theorem joinDot_snoc_inj (xs : List JStr) (a b : JStr) :
    (joinDot (xs ++ [a]) = joinDot (xs ++ [b])) ↔ a = b := by
  rw [joinDot_snoc, joinDot_snoc]
  cases xs with
  | nil => simp
  | cons x ys => simp

theorem commonLabels_nil_right (toks : List JStr) : commonLabels toks [] = 0 := by
  cases toks <;> rfl

theorem commonLabels_le (toks app : List JStr) : commonLabels toks app ≤ app.length := by
  induction toks generalizing app with
  | nil => cases app <;> simp [commonLabels]
  | cons t ts ih =>
    cases app with
    | nil => simp [commonLabels]
    | cons a as2 =>
      simp only [commonLabels, List.length_cons]
      split
      · exact Nat.succ_le_succ (ih as2)
      · exact Nat.zero_le _

theorem commonLabels_nil_left (app : List JStr) : commonLabels [] app = 0 := by
  cases app <;> rfl

theorem matchSegmentsLoop_take (app : List JStr) (happ : app ≠ []) :
    ∀ (toks : List JStr) (k : Nat), k ≤ app.length →
      matchSegmentsLoop app toks (app.take k) = app.take (k + commonLabels toks (app.drop k)) := by
  intro toks
  induction toks with
  | nil =>
    intro k _
    simp [matchSegmentsLoop, commonLabels_nil_left]
  | cons seg rest ih =>
    intro k hk
    by_cases hlt : k < app.length
    · have htake : app.take (k + 1) = app.take k ++ [app.get ⟨k, hlt⟩] := by
        rw [List.take_succ]
        simp [List.getElem?_eq_getElem hlt, List.get_eq_getElem]
      have hdrop : app.drop k = app.get ⟨k, hlt⟩ :: app.drop (k + 1) := by
        rw [List.drop_eq_getElem_cons hlt, List.get_eq_getElem]
      have hlen : (app.take k).length = k := by
        rw [List.length_take]
        exact min_eq_left (Nat.le_of_lt hlt)
      by_cases hseg : seg = app.get ⟨k, hlt⟩
      · have hcond : joinDot (app.take k ++ [seg]) = joinDot (app.take ((app.take k).length + 1)) := by
          rw [hlen, htake]
          exact (joinDot_snoc_inj _ _ _).mpr hseg
        have hmerge : List.take k app ++ [seg] = List.take (k + 1) app := by
          rw [htake, hseg]
        rw [matchSegmentsLoop, if_pos hcond, hmerge, ih (k + 1) hlt, hdrop]
        simp only [commonLabels, if_pos hseg]
        congr 1
        omega
      · have hcond : ¬ (joinDot (app.take k ++ [seg]) = joinDot (app.take ((app.take k).length + 1))) := by
          rw [hlen, htake]
          exact fun h => hseg ((joinDot_snoc_inj _ _ _).mp h)
        rw [matchSegmentsLoop, if_neg hcond, hdrop]
        simp only [commonLabels, if_neg hseg]
        simp
    · have hke : k = app.length := by omega
      subst hke
      have htk : app.take app.length = app := List.take_length app
      have htk1 : app.take (app.length + 1) = app := List.take_of_length_le (by omega)
      have hcond : ¬ (joinDot (app.take app.length ++ [seg])
          = joinDot (app.take ((app.take app.length).length + 1))) := by
        rw [htk, htk1, joinDot_snoc, if_neg happ]
        intro h
        have := congrArg List.length h
        simp at this
      rw [matchSegmentsLoop, if_neg hcond, List.drop_length, commonLabels_nil_right]
      simp

theorem matchSegmentsLoop_length (app toks : List JStr) (happ : app ≠ []) :
    (matchSegmentsLoop app toks []).length = commonLabels toks app := by
  have h := matchSegmentsLoop_take app happ toks 0 (Nat.zero_le _)
  simp only [List.take_zero, List.drop_zero, Nat.zero_add] at h
  rw [h, List.length_take]
  exact min_eq_left (commonLabels_le toks app)

/-- C3: the DomainPolicy decision `getMatchingDomainInfo` agrees with the
claim's case analysis on every input: false on loopback pages, missing
window locations and non-https pages, and otherwise true exactly when the
hosts are label-for-label identical or share at least two reversed labels. -/
theorem getMatchingDomainInfo_eq_claim (w : Option WinLocation) (tokenHost : JStr) :
    getMatchingDomainInfo w tokenHost = domainPolicyClaim w tokenHost := by
  cases w with
  | none => rfl
  | some loc =>
    by_cases hl : loc.hostname = cs "localhost" ∨ loc.hostname = cs "127.0.0.1"
    · simp [getMatchingDomainInfo, domainPolicyClaim, isLocalHostW, hl]
    · by_cases hp : loc.protocol = cs "https:"
      · have happ : ((splitOnChar '.' (toLowerJ loc.host)).reverse : List JStr) ≠ [] := by
          intro h
          exact splitOnChar_ne_nil '.' (toLowerJ loc.host) (List.reverse_eq_nil_iff.mp h)
        simp only [getMatchingDomainInfo, domainPolicyClaim, isLocalHostW, hl, decide_eq_true_eq,
          if_neg, hp, ne_eq, not_true_eq_false, if_false]
        rw [matchSegmentsLoop_length _ _ happ]
        set m := commonLabels ((splitOnChar '.' (toLowerJ tokenHost)).reverse)
          ((splitOnChar '.' (toLowerJ loc.host)).reverse) with hm
        by_cases h1 : m = ((splitOnChar '.' (toLowerJ tokenHost)).reverse : List JStr).length
            ∧ m = ((splitOnChar '.' (toLowerJ loc.host)).reverse : List JStr).length
        · simp only [h1, if_true, and_self, if_pos]
          simp [h1.1, h1.2]
          rfl
        · by_cases h2 : 1 < m
          · simp only [h1, h2, if_true, if_false, eq_self_iff_true]
            simp only [List.length_reverse] at h1
            simp [h1, h2]
            exact h2
          · simp only [List.length_reverse] at h1
            simp [h1, h2]
            omega
      · simp [getMatchingDomainInfo, domainPolicyClaim, isLocalHostW, hl, hp]

/-- The anchored regex replace `hostUrl.replace(/^(https?:\/+)/, '')` of the
constructor (src/index.js line 32): an initial `http:` or `https:` scheme
followed by one or more slashes is removed (all leading slashes, since the
regex is greedy); otherwise the string is unchanged. -/
def stripScheme (s : JStr) : JStr :=
  match s with
  | 'h' :: 't' :: 't' :: 'p' :: 's' :: ':' :: '/' :: r => r.dropWhile (fun c => c == '/')
  | 'h' :: 't' :: 't' :: 'p' :: ':' :: '/' :: r => r.dropWhile (fun c => c == '/')
  | _ => s

/-- JavaScript `a || b` over optional strings where the empty string is
falsy: the first truthy value, if any. -/
def truthyStrOpt (o : Option JStr) : Option JStr :=
  match o with
  | some s => if s = [] then none else some s
  | none => none

/-- First truthy of the two host settings, as in
`settings.authressLoginHostUrl || settings.authenticationServiceUrl || ''`. -/
def firstTruthy (a b : Option JStr) : Option JStr :=
  match truthyStrOpt a with
  | some s => some s
  | none => truthyStrOpt b

/-- The constructor's host-URL computation (src/index.js lines 26-32): throw
(`Except.error`) when no host setting is truthy, otherwise prepend
`https://` to the scheme-stripped host. -/
def constructorHostUrl (authressLoginHostUrl authenticationServiceUrl : Option JStr) : Except Unit JStr :=
  match firstTruthy authressLoginHostUrl authenticationServiceUrl with
  | none => Except.error ()
  | some hostUrl => Except.ok (cs "https://" ++ stripScheme hostUrl)

theorem dropWhile_slash_of_head (r : JStr) (h : r.head? ≠ some '/') :
    r.dropWhile (fun c => c == '/') = r := by
  cases r with
  | nil => rfl
  | cons c t =>
    have hc : (c == '/') = false := by
      cases hcc : c == '/' with
      | false => rfl
      | true => exact absurd (by simp [List.head?, beq_iff_eq.mp hcc]) h
    simp [List.dropWhile, hc]

/-- C10: the constructor errors exactly when neither `authressLoginHostUrl`
nor `authenticationServiceUrl` is supplied with a non-empty value; otherwise
the stored host URL is `https://` prepended to the scheme-stripped host, so
it always carries the `https://` scheme, and stripping removes a leading
`http://` or `https://` prefix (an insecure URL is upgraded). -/
theorem constructorHostUrl_claim (a b : Option JStr) :
    (firstTruthy a b = none → constructorHostUrl a b = Except.error ()) ∧
    (∀ h : JStr, firstTruthy a b = some h →
      constructorHostUrl a b = Except.ok (cs "https://" ++ stripScheme h) ∧
      List.IsPrefix (cs "https://") (cs "https://" ++ stripScheme h)) ∧
    (∀ r : JStr, r.head? ≠ some '/' →
      stripScheme (cs "http://" ++ r) = r ∧ stripScheme (cs "https://" ++ r) = r) := by
  refine ⟨fun h => by simp [constructorHostUrl, h], fun h hh => ?_, fun r hr => ?_⟩
  · constructor
    · simp [constructorHostUrl, hh]
    · exact List.prefix_append _ _
  · constructor
    · show stripScheme ('h' :: 't' :: 't' :: 'p' :: ':' :: '/' :: '/' :: r) = r
      show List.dropWhile (fun c => c == '/') ('/' :: r) = r
      simp only [List.dropWhile]
      simp only [beq_self_eq_true, if_true]
      exact dropWhile_slash_of_head r hr
    · show stripScheme ('h' :: 't' :: 't' :: 'p' :: 's' :: ':' :: '/' :: '/' :: r) = r
      show List.dropWhile (fun c => c == '/') ('/' :: r) = r
      simp only [List.dropWhile]
      simp only [beq_self_eq_true, if_true]
      exact dropWhile_slash_of_head r hr

/-- C10 witness: a concrete insecure host URL is accepted and upgraded. -/
theorem constructorHostUrl_claim_witness :
    constructorHostUrl (some (cs "http://login.example.com")) none
      = Except.ok (cs "https://" ++ stripScheme (cs "http://login.example.com")) ∧
    List.IsPrefix (cs "https://") (cs "https://" ++ stripScheme (cs "http://login.example.com")) ∧
    stripScheme (cs "http://" ++ cs "login.example.com") = cs "login.example.com" := by
  have h := constructorHostUrl_claim (some (cs "http://login.example.com")) none
  exact ⟨(h.2.1 (cs "http://login.example.com") rfl).1,
    (h.2.1 (cs "http://login.example.com") rfl).2,
    (h.2.2 (cs "login.example.com") (by decide)).1⟩

/-- A JS `Date`: a valid millisecond timestamp, or the Invalid Date that
NaN arithmetic produces. -/
inductive JsDate where
  | valid (ms : Int)
  | invalid
deriving DecidableEq

/-- Modelled from the spec: TokenStore (`userIdentityTokenStorageManager`,
whose source is not under `src/`) -- "get() -> token|null, set(token,
expiry), clear(); get must return null for an entry whose expiry has
passed" (checked lazily on read).  The slot stores whatever JS value `set`
received (possibly `undefined`) with its expiry; an Invalid-Date expiry
never compares as passed, NaN comparisons being false. -/
def tokenStoreGet (now : Nat) (slot : Option (Option Json × JsDate)) : Option Json :=
  match slot with
  | none => none
  | some (tok, JsDate.valid ms) => if (now : Int) < ms then tok else none
  | some (tok, JsDate.invalid) => tok

/-- An HTTP transport failure surfaced by the HttpClient collaborator. -/
structure HttpFail where
  status : Nat
  title : Option JStr
  errorCode : Option JStr
deriving DecidableEq

/-- Error conditions raised by the client (the `code` property of thrown
errors, plus the unnamed TypeError and transport passthrough cases). -/
inductive ErrCode where
  | invalidNonce
  | tokenTimeout
  | invalidConnection
  | invalidResponseLocation
  | notLoggedIn
  | invalidAuthenticationRequest
  | typeError
  | httpFailure (f : HttpFail)
  | providerError (code : Option JStr)
deriving DecidableEq

/-- The page-global mutable state a continuation pass reads and writes:
the credentialed-access flag, the pending-authentication storage slot, the
TokenStore slot, the parsed cookie jar, the visible URL query parameters
and whether the shared session signal has been resolved. -/
structure ClientState where
  enableCredentials : Bool
  storageItem : Option JStr
  tokenStore : Option (Option Json × JsDate)
  cookies : List (JStr × JStr)
  urlParams : List (JStr × JStr)
  sessionResolved : Bool

/-- The environment of one continuation pass: the clock, the window
location, whether localStorage access succeeds, and the transport outcomes
of the two requests the pass can make. -/
structure ContEnv where
  now : Nat
  loc : WinLocation
  storageOk : Bool
  tokenPost : Except HttpFail Json
  sessionPatch : Except HttpFail Json

/-- `URLSearchParams.get`: first match or null. -/
def getParam (params : List (JStr × JStr)) (k : JStr) : Option JStr :=
  List.lookup k params

/-- Truthiness of `URLSearchParams.get`: non-null and non-empty. -/
def truthyParam (o : Option JStr) : Bool :=
  match o with
  | some s => decide (s ≠ [])
  | none => false

/-- `URLSearchParams.delete` for several names at once. -/
def removeParams (params : List (JStr × JStr)) (ks : List JStr) : List (JStr × JStr) :=
  params.filter (fun p => decide (p.1 ∉ ks))

/-- Cookie write: overwrite the named cookie or append it. -/
def upsertAssoc (l : List (JStr × JStr)) (k v : JStr) : List (JStr × JStr) :=
  match l with
  | [] => [(k, v)]
  | (k2, v2) :: rest => if k2 = k then (k, v) :: rest else (k2, v2) :: upsertAssoc rest k v

/-- Property-bag update used to model `userData.userId = userData.sub`:
when `sub` exists the binding is appended (last wins on lookup), and when
`sub` is `undefined` the `userId` key reads as `undefined` afterwards,
which we model by erasing it.  This is observationally faithful for
`jsGetField`. -/
def setProp (fs : List (JStr × Json)) (k : JStr) (v : Option Json) : List (JStr × Json) :=
  match v with
  | some x => fs ++ [(k, x)]
  | none => fs.filter (fun p => ! decide (p.1 = k))

/-- `userData.userId = userData.sub` (src/index.js line 102): objects and
arrays accept the property; primitive values ignore the assignment. -/
def jsSetUserId (j : Json) : Json :=
  match j with
  | Json.obj fs => Json.obj (setProp fs (cs "userId") (lookupLast fs (cs "sub")))
  | Json.arr es ps => Json.arr es (setProp ps (cs "userId") (lookupLast ps (cs "sub")))
  | other => other

/-- `getUserIdentity` (src/index.js lines 96-104): read the stored token,
decode it, return null for a falsy result, else attach `userId`. -/
def getUserIdentity (now : Nat) (st : ClientState) : Option Json :=
  match jwtDecode (tokenStoreGet now st.tokenStore) with
  | none => none
  | some j => if truthy j then some (jsSetUserId j) else none

/-- JavaScript string coercion of a JSON value as the cookie serializer
applies it.  Array coercion is approximated (no claim stores an array as a
cookie value). -/
def jsToString (j : Json) : JStr :=
  match j with
  | Json.null => cs "null"
  | Json.bool true => cs "true"
  | Json.bool false => cs "false"
  | Json.num n => (toString n).toList
  | Json.str s => s
  | Json.arr _ _ => []
  | Json.obj _ => cs "[object Object]"

/-- `access_token || ''` then cookie-serialized. -/
def cookieValue (o : Option Json) : JStr :=
  match o with
  | some j => if truthy j then jsToString j else []
  | none => []

/-- `new Date(Date.now() + expires_in * 1000)` for a truthy `expires_in`
value; non-numeric coercion gives NaN and hence the Invalid Date. -/
def dateFromNowPlus (now : Nat) (ei : Option Json) : JsDate :=
  match jsNumberOf ei with
  | some n => JsDate.valid ((now : Int) + n * 1000)
  | none => JsDate.invalid

/-- `new Date(idToken.exp * 1000)` on a decoded (non-null) token value. -/
def dateFromExpClaim (j : Json) : JsDate :=
  match jsNumberOf (jsGetField j (cs "exp")) with
  | some n => JsDate.valid (n * 1000)
  | none => JsDate.invalid

/-- The expiry expression `data.expires_in && new Date(now + expires_in *
1000) || new Date(idToken.exp * 1000)` (src/index.js lines 187 and 232);
when `expires_in` is falsy and the decoded token is null, reading `.exp`
throws a TypeError, modelled as `none`. -/
def expiryFromResponse (now : Nat) (data : Json) (idToken : Option Json) : Option JsDate :=
  if truthyOptJson (jsGetField data (cs "expires_in")) then
    some (dateFromNowPlus now (jsGetField data (cs "expires_in")))
  else
    match idToken with
    | none => none
    | some j => some (dateFromExpClaim j)

/-- `localStorage.getItem(key) || '\x7b\x7d'`: a missing or empty stored
item defaults to the empty-object literal. -/
def getItemOrBraces (item : Option JStr) : JStr :=
  match item with
  | some s => if s = [] then [lbraceC, rbraceC] else s
  | none => [lbraceC, rbraceC]

/-- The pending-record load at the top of `userSessionContinuation`
(src/index.js lines 157-164): on storage success parse the stored record,
delete it and set `enableCredentials` to `record.enableCredentials !==
false`; if the parse throws the record stays and nothing updates; if the
parse yields JSON `null`, the removal has already happened but the flag
update throws inside the `try` (property read on `null`) and is caught. -/
def loadAuthRequest (storageOk : Bool) (st : ClientState) : Json × ClientState :=
  if storageOk then
    match jsonParse (getItemOrBraces st.storageItem) with
    | some Json.null => (Json.null, { st with storageItem := none })
    | some a =>
      (a, { st with storageItem := none,
                    enableCredentials := ! isFalseJson (jsGetField a (cs "enableCredentials")) })
    | none => (Json.obj [], st)
  else (Json.obj [], st)

/-- `Number(urlSearchParams.get(name))`: `Number(null)` is `0`. -/
def numberOfParam (o : Option JStr) : Option Int :=
  match o with
  | none => some 0
  | some s => strToNumber s

/-- Truthiness of a coerced number (NaN and 0 are falsy). -/
def truthyNum (o : Option Int) : Bool :=
  match o with
  | some n => decide (n ≠ 0)
  | none => false

/-- A query-parameter value as the JS value handed to `decode`/`set`. -/
def paramToJson (o : Option JStr) : Option Json := o.map Json.str

/-- Discriminate the JSON `null` value. -/
def isNullJson : Json → Bool
  | Json.null => true
  | _ => false

/-- The body of `userSessionContinuation` after the pending-record load
(src/index.js lines 166-250).  Returns the settled result (`Except` for a
rejected pass) together with the final page-global state.  The order of
branches follows the source: the oauthLogin short-circuit, the
authorization-code exchange with its nonce check, the loopback
implicit-flow branch with its nonce check, the already-logged-in check,
and the guarded silent `PATCH /session` refresh whose failures (transport
errors or the TypeError from reading `.exp` off a null decode) are
swallowed by its `try/catch`. -/
def contAfterLoad (env : ContEnv) (bg : Bool) (a : Json) (st : ClientState) :
    Except ErrCode Bool × ClientState :=
  let params := st.urlParams
  if truthyParam (getParam params (cs "state"))
      && (getParam params (cs "flow") == some (cs "oauthLogin")) then
    (Except.ok false, st)
  else if isNullJson a then
    (Except.error ErrCode.typeError, st)
  else if truthyOptJson (jsGetField a (cs "nonce")) && truthyParam (getParam params (cs "code")) then
    if ! jsStrictEqStr (jsGetField a (cs "nonce")) (getParam params (cs "nonce")) then
      (Except.error ErrCode.invalidNonce, st)
    else
      let st1 := { st with urlParams := removeParams params [cs "nonce", cs "iss", cs "code"] }
      match env.tokenPost with
      | Except.error f => (Except.error (ErrCode.httpFailure f), st1)
      | Except.ok data =>
        let idToken := jwtDecode (jsGetField data (cs "id_token"))
        match expiryFromResponse env.now data idToken with
        | none => (Except.error ErrCode.typeError, st1)
        | some expiry =>
          let st2 := { st1 with
            cookies := upsertAssoc st1.cookies (cs "authorization")
              (cookieValue (jsGetField data (cs "access_token"))),
            tokenStore := some (jsGetField data (cs "id_token"), expiry),
            sessionResolved := true }
          (Except.ok true, st2)
  else if isLocalHostW (some env.loc) && truthyParam (getParam params (cs "nonce"))
      && truthyParam (getParam params (cs "access_token")) then
    if truthyOptJson (jsGetField a (cs "nonce"))
        && ! jsStrictEqStr (jsGetField a (cs "nonce")) (getParam params (cs "nonce")) then
      (Except.error ErrCode.invalidNonce, st)
    else
      let newParams := removeParams params
        [cs "iss", cs "nonce", cs "expires_in", cs "access_token", cs "id_token"]
      let st1 := { st with urlParams := newParams }
      let idToken := jwtDecode (paramToJson (getParam params (cs "id_token")))
      let ei := numberOfParam (getParam params (cs "expires_in"))
      let expiryOpt : Option JsDate :=
        if truthyNum ei then
          some (match ei with
            | some n => JsDate.valid ((env.now : Int) + n * 1000)
            | none => JsDate.invalid)
        else
          match idToken with
          | none => none
          | some j => some (dateFromExpClaim j)
      match expiryOpt with
      | none => (Except.error ErrCode.typeError, st1)
      | some expiry =>
        let st2 := { st1 with
          cookies := upsertAssoc st1.cookies (cs "authorization")
            ((getParam params (cs "access_token")).getD []),
          tokenStore := some (paramToJson (getParam params (cs "id_token")), expiry),
          sessionResolved := true }
        (Except.ok true, st2)
  else
    match getUserIdentity env.now st with
    | some _ => (Except.ok true, { st with sessionResolved := true })
    | none =>
      if ! isLocalHostW (some env.loc) && ! bg then
        let st2 :=
          match env.sessionPatch with
          | Except.error _ => st
          | Except.ok data =>
            if truthyOptJson (jsGetField data (cs "access_token")) then
              let idToken := jwtDecode (jsGetField data (cs "id_token"))
              match expiryFromResponse env.now data idToken with
              | none => st
              | some expiry =>
                { st with
                  cookies := upsertAssoc st.cookies (cs "authorization")
                    (cookieValue (jsGetField data (cs "access_token"))),
                  tokenStore := some (jsGetField data (cs "id_token"), expiry) }
            else
              let userCookie := List.lookup (cs "user") st.cookies
              let expiry :=
                if truthyOptJson (jsGetField data (cs "expires_in")) then
                  dateFromNowPlus env.now (jsGetField data (cs "expires_in"))
                else if truthyParam userCookie then
                  JsDate.invalid
                else
                  JsDate.valid ((env.now : Int) + 86400000)
              { st with tokenStore := some (jsGetField data (cs "id_token"), expiry) }
        match getUserIdentity env.now st2 with
        | some _ => (Except.ok true, { st2 with sessionResolved := true })
        | none => (Except.ok false, st2)
      else (Except.ok false, st)

/-- `userSessionContinuation` (src/index.js lines 153-250): load and
consume the pending-authentication record, then run the dispatch above. -/
def userSessionContinuation (env : ContEnv) (bg : Bool) (st : ClientState) :
    Except ErrCode Bool × ClientState :=
  let p := loadAuthRequest env.storageOk st
  contAfterLoad env bg p.1 p.2

theorem loadAuthRequest_preserves (storageOk : Bool) (st : ClientState) :
    (loadAuthRequest storageOk st).2.tokenStore = st.tokenStore ∧
    (loadAuthRequest storageOk st).2.cookies = st.cookies ∧
    (loadAuthRequest storageOk st).2.urlParams = st.urlParams ∧
    (loadAuthRequest storageOk st).2.sessionResolved = st.sessionResolved := by
  unfold loadAuthRequest
  split
  · split <;> simp
  · simp

/-- C1 (amended): whenever the loaded pending record's nonce is truthy, the
URL carries a truthy `code` parameter, the URL's `nonce` parameter is not
strictly equal to the record's nonce, and the oauthLogin short-circuit
(`state` present with `flow=oauthLogin`) does not apply, the continuation
pass rejects with `InvalidNonce` and leaves the TokenStore, the cookie jar,
the visible URL and the session signal unchanged. -/
theorem continuation_nonce_mismatch_aborts (env : ContEnv) (bg : Bool) (st : ClientState)
    (h1 : truthyOptJson (jsGetField (loadAuthRequest env.storageOk st).1 (cs "nonce")) = true)
    (h2 : truthyParam (getParam st.urlParams (cs "code")) = true)
    (h3 : (truthyParam (getParam st.urlParams (cs "state"))
      && (getParam st.urlParams (cs "flow") == some (cs "oauthLogin"))) = false)
    (h4 : jsStrictEqStr (jsGetField (loadAuthRequest env.storageOk st).1 (cs "nonce"))
      (getParam st.urlParams (cs "nonce")) = false) :
    (userSessionContinuation env bg st).1 = Except.error ErrCode.invalidNonce ∧
    (userSessionContinuation env bg st).2.tokenStore = st.tokenStore ∧
    (userSessionContinuation env bg st).2.cookies = st.cookies ∧
    (userSessionContinuation env bg st).2.urlParams = st.urlParams ∧
    (userSessionContinuation env bg st).2.sessionResolved = st.sessionResolved := by
  have hp := loadAuthRequest_preserves env.storageOk st
  have hnull : isNullJson (loadAuthRequest env.storageOk st).1 = false := by
    cases hja : (loadAuthRequest env.storageOk st).1 <;> simp [isNullJson]
    rw [hja] at h1
    simp [jsGetField, truthyOptJson] at h1
  simp only [userSessionContinuation, contAfterLoad, hp.1, hp.2.1, hp.2.2.1, hp.2.2.2,
    h3, hnull, h1, h2, h4, Bool.true_and, Bool.and_true, Bool.not_false, Bool.false_eq_true,
    if_false, if_true]
  simp [hp.1, hp.2.1, hp.2.2.1, hp.2.2.2]

/-- C1 witness environment: a non-loopback https page. -/
def wEnv1 : ContEnv :=
  { now := 0,
    loc := { hostname := cs "app.example.com", host := cs "app.example.com", protocol := cs "https:" },
    storageOk := true,
    tokenPost := Except.error { status := 500, title := none, errorCode := none },
    sessionPatch := Except.error { status := 500, title := none, errorCode := none } }

/-- C1 witness state: pending record with nonce n1, URL carrying a code and
the different nonce n2. -/
def wSt1 : ClientState :=
  { enableCredentials := false,
    storageItem := some (cs "\x7b\"nonce\":\"n1\"\x7d"),
    tokenStore := none,
    cookies := [],
    urlParams := [(cs "code", cs "c"), (cs "nonce", cs "n2")],
    sessionResolved := false }

/-- C1 witness: the amended theorem applied at a concrete mismatching
callback. -/
theorem continuation_nonce_mismatch_aborts_witness :
    (userSessionContinuation wEnv1 false wSt1).1 = Except.error ErrCode.invalidNonce ∧
    (userSessionContinuation wEnv1 false wSt1).2.tokenStore = wSt1.tokenStore ∧
    (userSessionContinuation wEnv1 false wSt1).2.cookies = wSt1.cookies ∧
    (userSessionContinuation wEnv1 false wSt1).2.urlParams = wSt1.urlParams ∧
    (userSessionContinuation wEnv1 false wSt1).2.sessionResolved = wSt1.sessionResolved :=
  continuation_nonce_mismatch_aborts wEnv1 false wSt1 (by decide) (by decide) (by decide) (by decide)

/-- C1 counterexample state: same mismatching code callback, but the URL
also carries `state` with `flow=oauthLogin`. -/
def cSt1 : ClientState :=
  { enableCredentials := false,
    storageItem := some (cs "\x7b\"nonce\":\"n1\"\x7d"),
    tokenStore := none,
    cookies := [],
    urlParams := [(cs "state", cs "s"), (cs "flow", cs "oauthLogin"),
      (cs "code", cs "c"), (cs "nonce", cs "n2")],
    sessionResolved := false }

/-- C1 counterexample: the claim's premise holds (record nonce truthy, code
truthy, URL nonce differs), yet the continuation returns false instead of
raising `InvalidNonce`, because the oauthLogin short-circuit runs first. -/
theorem continuation_nonce_mismatch_counterexample :
    truthyOptJson (jsGetField (loadAuthRequest wEnv1.storageOk cSt1).1 (cs "nonce")) = true ∧
    truthyParam (getParam cSt1.urlParams (cs "code")) = true ∧
    jsStrictEqStr (jsGetField (loadAuthRequest wEnv1.storageOk cSt1).1 (cs "nonce"))
      (getParam cSt1.urlParams (cs "nonce")) = false ∧
    (userSessionContinuation wEnv1 false cSt1).1 = Except.ok false :=
  ⟨by decide, by decide, by decide, rfl⟩

theorem contAfterLoad_preserves_enableCredentials (env : ContEnv) (bg : Bool) (a : Json)
    (st : ClientState) :
    (contAfterLoad env bg a st).2.enableCredentials = st.enableCredentials := by
  unfold contAfterLoad
  dsimp only
  repeat' split
  all_goals rfl

/-- C4 (amended): the credentialed-access flag after a continuation pass is
determined by the record load alone -- when storage access succeeds and the
stored record (or the empty-object default used when no record exists)
parses, the flag becomes `record.enableCredentials !== false`, so a missing
record or a record without the field forces the flag to true, discarding
the constructor-computed value; the constructor value survives only when
storage access fails, the stored item does not parse, or it parses to JSON
null.  No later step of the pass modifies the flag. -/
theorem continuation_enableCredentials_claim (env : ContEnv) (bg : Bool) (st : ClientState) :
    (userSessionContinuation env bg st).2.enableCredentials =
      (if env.storageOk then
        match jsonParse (getItemOrBraces st.storageItem) with
        | some Json.null => st.enableCredentials
        | some a => ! isFalseJson (jsGetField a (cs "enableCredentials"))
        | none => st.enableCredentials
      else st.enableCredentials) := by
  show (contAfterLoad env bg (loadAuthRequest env.storageOk st).1
      (loadAuthRequest env.storageOk st).2).2.enableCredentials = _
  rw [contAfterLoad_preserves_enableCredentials]
  unfold loadAuthRequest
  split
  · split <;> rfl
  · rfl

/-- C4 counterexample state: no pending record, constructor-computed flag
false. -/
def c4St : ClientState :=
  { enableCredentials := false,
    storageItem := none,
    tokenStore := none,
    cookies := [],
    urlParams := [],
    sessionResolved := false }

/-- C4 counterexample: with no pending record at all, a (background)
continuation pass still flips the credentialed-access flag from false to
true, contradicting the claim that the flag keeps its constructor value
when no record exists. -/
theorem continuation_enableCredentials_counterexample :
    c4St.storageItem = none ∧ c4St.enableCredentials = false ∧
    (userSessionContinuation wEnv1 true c4St).2.enableCredentials = true :=
  ⟨rfl, rfl, rfl⟩

/-- C5 environment: silent refresh succeeds with an empty body (no
access_token, no expires_in, no id_token). -/
def c5Env : ContEnv :=
  { now := 0,
    loc := { hostname := cs "app.example.com", host := cs "app.example.com", protocol := cs "https:" },
    storageOk := true,
    tokenPost := Except.error { status := 500, title := none, errorCode := none },
    sessionPatch := Except.ok (Json.obj []) }

/-- C5 state: a `user` cookie holding a decodable identity token with exp
claim 100, nothing in the TokenStore. -/
def c5St : ClientState :=
  { enableCredentials := true,
    storageItem := none,
    tokenStore := none,
    cookies := [(cs "user", cs "x.eyJleHAiOjEwMH0.y")],
    urlParams := [],
    sessionResolved := false }

/-- C5 code evaluation: on the silent-refresh fallback path the code stores
the response's absent `id_token` (undefined) with an Invalid-Date expiry --
it reads `.exp` off the raw `user` cookie string without decoding it,
producing `new Date(NaN)` -- although the cookie token decodes fine and
carries exp claim 100 (so the claim's expected entry would be that token
with a valid expiry). -/
theorem silentRefresh_fallback_code_evaluation :
    (userSessionContinuation c5Env false c5St).1 = Except.ok false ∧
    (userSessionContinuation c5Env false c5St).2.tokenStore = some (none, JsDate.invalid) ∧
    jwtDecodeStr (cs "x.eyJleHAiOjEwMH0.y") = some (Json.obj [(cs "exp", Json.num 100)]) :=
  ⟨rfl, rfl, rfl⟩

/-- Values that accept a JS property assignment (objects and arrays). -/
def isContainer : Json → Bool
  | Json.obj _ => true
  | Json.arr _ _ => true
  | _ => false

theorem lookupLast_append_same (fs : List (JStr × Json)) (k : JStr) (v : Json) :
    lookupLast (fs ++ [(k, v)]) k = some v := by
  induction fs with
  | nil => simp [lookupLast]
  | cons p rest ih =>
    cases p
    simp [lookupLast, ih]

theorem lookupLast_append_ne (fs : List (JStr × Json)) (k k2 : JStr) (v : Json) (h : k2 ≠ k) :
    lookupLast (fs ++ [(k, v)]) k2 = lookupLast fs k2 := by
  induction fs with
  | nil => simp [lookupLast, Ne.symm h]
  | cons p rest ih =>
    cases p
    simp [lookupLast, ih]

theorem lookupLast_erase_same (fs : List (JStr × Json)) (k : JStr) :
    lookupLast (fs.filter (fun p => ! decide (p.1 = k))) k = none := by
  induction fs with
  | nil => rfl
  | cons p rest ih =>
    cases p with
    | mk k2 v =>
      by_cases h : k2 = k
      · rw [List.filter_cons, if_neg (by simp [h])]
        exact ih
      · rw [List.filter_cons, if_pos (by simp [h])]
        simp [lookupLast, ih, h]

theorem lookupLast_erase_ne (fs : List (JStr × Json)) (k k2 : JStr) (h : k2 ≠ k) :
    lookupLast (fs.filter (fun p => ! decide (p.1 = k))) k2 = lookupLast fs k2 := by
  induction fs with
  | nil => rfl
  | cons p rest ih =>
    cases p with
    | mk k3 v =>
      by_cases hk : k3 = k
      · subst hk
        rw [List.filter_cons, if_neg (by simp)]
        rw [ih]
        cases hr : lookupLast rest k2 <;> simp [lookupLast, hr, Ne.symm h]
      · rw [List.filter_cons, if_pos (by simp [hk])]
        simp [lookupLast, ih]

theorem jsGetField_setUserId_userId (j : Json) (hc : isContainer j = true) :
    jsGetField (jsSetUserId j) (cs "userId") = jsGetField j (cs "sub") := by
  cases j with
  | obj fs =>
    cases hsub : lookupLast fs (cs "sub") with
    | some v => simp [jsSetUserId, jsGetField, setProp, hsub, lookupLast_append_same]
    | none => simp [jsSetUserId, jsGetField, setProp, hsub, lookupLast_erase_same]
  | arr es ps =>
    cases hsub : lookupLast ps (cs "sub") with
    | some v => simp [jsSetUserId, jsGetField, setProp, hsub, lookupLast_append_same]
    | none => simp [jsSetUserId, jsGetField, setProp, hsub, lookupLast_erase_same]
  | null => simp [isContainer] at hc
  | bool b => simp [isContainer] at hc
  | num n => simp [isContainer] at hc
  | str s => simp [isContainer] at hc

theorem jsGetField_setUserId_other (j : Json) (k : JStr) (h : k ≠ cs "userId") :
    jsGetField (jsSetUserId j) k = jsGetField j k := by
  cases j with
  | obj fs =>
    cases hsub : lookupLast fs (cs "sub") with
    | some v => simp [jsSetUserId, jsGetField, setProp, hsub, lookupLast_append_ne _ _ _ _ h]
    | none => simp [jsSetUserId, jsGetField, setProp, hsub, lookupLast_erase_ne _ _ _ h]
  | arr es ps =>
    cases hsub : lookupLast ps (cs "sub") with
    | some v => simp [jsSetUserId, jsGetField, setProp, hsub, lookupLast_append_ne _ _ _ _ h]
    | none => simp [jsSetUserId, jsGetField, setProp, hsub, lookupLast_erase_ne _ _ _ h]
  | null => rfl
  | bool b => rfl
  | num n => rfl
  | str s => rfl

theorem jsSetUserId_primitive (j : Json) (h : isContainer j = false) : jsSetUserId j = j := by
  cases j <;> simp_all [isContainer, jsSetUserId]

/-- C9 (amended): `getUserIdentity` returns null when the TokenStore holds
no token, the stored value does not decode, or the decoded value is falsy;
otherwise it returns the decoded value with the `userId` property set:
for an object (or array) result, reading `userId` yields the token's `sub`
claim and every other property is unchanged, while a truthy primitive
decode result is returned unmodified (the JS assignment on a primitive is
a silent no-op). -/
theorem getUserIdentity_claim (now : Nat) (st : ClientState) :
    (jwtDecode (tokenStoreGet now st.tokenStore) = none → getUserIdentity now st = none) ∧
    (∀ j : Json, jwtDecode (tokenStoreGet now st.tokenStore) = some j →
      (truthy j = false → getUserIdentity now st = none) ∧
      (truthy j = true →
        getUserIdentity now st = some (jsSetUserId j) ∧
        (isContainer j = true →
          jsGetField (jsSetUserId j) (cs "userId") = jsGetField j (cs "sub")) ∧
        (∀ k : JStr, k ≠ cs "userId" → jsGetField (jsSetUserId j) k = jsGetField j k) ∧
        (isContainer j = false → jsSetUserId j = j))) := by
  constructor
  · intro h
    simp [getUserIdentity, h]
  · intro j hj
    constructor
    · intro hf
      simp [getUserIdentity, hj, hf]
    · intro ht
      refine ⟨by simp [getUserIdentity, hj, ht], jsGetField_setUserId_userId j,
        fun k hk => jsGetField_setUserId_other j k hk, jsSetUserId_primitive j⟩

/-- C9 witness state: a stored, unexpired identity token whose payload is
the object with sub claim u1. -/
def w9St : ClientState :=
  { enableCredentials := true,
    storageItem := none,
    tokenStore := some (some (Json.str (cs "h.eyJzdWIiOiJ1MSJ9.s")), JsDate.valid 1000),
    cookies := [],
    urlParams := [],
    sessionResolved := false }

/-- C9 witness: at a concrete stored token the identity is returned with
`userId` reading as the `sub` claim. -/
theorem getUserIdentity_claim_witness :
    getUserIdentity 0 w9St = some (jsSetUserId (Json.obj [(cs "sub", Json.str (cs "u1"))])) ∧
    jsGetField (jsSetUserId (Json.obj [(cs "sub", Json.str (cs "u1"))])) (cs "userId")
      = jsGetField (Json.obj [(cs "sub", Json.str (cs "u1"))]) (cs "sub") := by
  have h := (getUserIdentity_claim 0 w9St).2 (Json.obj [(cs "sub", Json.str (cs "u1"))]) rfl
  have h2 := h.2 rfl
  exact ⟨h2.1, h2.2.1 rfl⟩

/-- C9 counterexample state: a stored, unexpired token whose payload is the
bare JSON number 5. -/
def c9St : ClientState :=
  { enableCredentials := true,
    storageItem := none,
    tokenStore := some (some (Json.str (cs "h.NQ.s")), JsDate.valid 1000),
    cookies := [],
    urlParams := [],
    sessionResolved := false }

/-- C9 counterexample: the stored token decodes (to the truthy number 5),
yet `getUserIdentity` returns neither null nor a claims object with a
`userId` field -- it returns the bare number, on which the `userId`
assignment was a silent no-op. -/
theorem getUserIdentity_counterexample :
    getUserIdentity 0 c9St = some (Json.num 5) ∧
    jsGetField (Json.num 5) (cs "userId") = none :=
  ⟨rfl, rfl⟩

/-- The `timeoutInMillis` option slot of `ensureToken`: the caller may omit
the options object, pass one without the field, pass the field explicitly
undefined, or pass a number. -/
inductive TimeoutField where
  | absent
  | undef
  | val (n : Nat)
deriving DecidableEq

/-- The effective timeout (src/index.js lines 472-474):
`Object.assign` with the 5000 default, then `|| 0` -- so an explicitly
undefined or zero field races against an immediate timer. -/
def effTimeout (options : Option TimeoutField) : Nat :=
  match options with
  | none => 5000
  | some TimeoutField.absent => 5000
  | some TimeoutField.undef => 0
  | some (TimeoutField.val n) => n

/-- Whether the shared session signal, resolving at `signalTime`
milliseconds from the race start (never, when `none`), beats the timeout:
an in-window resolution wins, promise microtasks beating the timer at the
same tick. -/
def resolvesWithin (signalTime : Option Nat) (t : Nat) : Bool :=
  match signalTime with
  | some s => decide (s ≤ t)
  | none => false

/-- `cookies.authorization !== 'undefined' && cookies.authorization`
(src/index.js line 483): `none` for a missing, empty or placeholder
cookie. -/
def readAuthCookie (cookies : List (JStr × JStr)) : Option JStr :=
  match List.lookup (cs "authorization") cookies with
  | none => none
  | some v => if v = cs "undefined" then none else if v = [] then none else some v

/-- `ensureToken` (src/index.js lines 470-484): first await the session
check (`userSessionExists`), whose rejection propagates as-is; then race
the shared session signal against the configured timeout, rejecting with
TokenTimeout on a lost race and reading the access-token cookie on a won
one. -/
def ensureToken (sessionCheck : Except ErrCode Bool) (signalTime : Option Nat)
    (options : Option TimeoutField) (cookies : List (JStr × JStr)) :
    Except ErrCode (Option JStr) :=
  match sessionCheck with
  | Except.error e => Except.error e
  | Except.ok _ =>
    if resolvesWithin signalTime (effTimeout options) then Except.ok (readAuthCookie cookies)
    else Except.error ErrCode.tokenTimeout

/-- C6 (amended): provided the preliminary session re-check completes
without rejecting, `ensureToken` races the session signal against the
configured timeout (5000 ms when no options are given): a lost race
rejects with TokenTimeout, a won race returns the access token read from
the cookie store, which is none when the cookie is absent or holds the
placeholder string. -/
theorem ensureToken_claim (b : Bool) (signalTime : Option Nat)
    (options : Option TimeoutField) (cookies : List (JStr × JStr)) :
    (resolvesWithin signalTime (effTimeout options) = false →
      ensureToken (Except.ok b) signalTime options cookies = Except.error ErrCode.tokenTimeout) ∧
    (resolvesWithin signalTime (effTimeout options) = true →
      ensureToken (Except.ok b) signalTime options cookies = Except.ok (readAuthCookie cookies)) ∧
    effTimeout none = 5000 ∧
    (List.lookup (cs "authorization") cookies = none → readAuthCookie cookies = none) ∧
    (List.lookup (cs "authorization") cookies = some (cs "undefined") →
      readAuthCookie cookies = none) := by
  refine ⟨fun h => ?_, fun h => ?_, rfl, fun h => ?_, fun h => ?_⟩
  · simp [ensureToken, h]
  · simp [ensureToken, h]
  · simp [readAuthCookie, h]
  · simp [readAuthCookie, h]

/-- C6 witness: with no session ever established and a 10 ms timeout the
call rejects with TokenTimeout (spec scenario 4), and the default timeout
is 5000 ms. -/
theorem ensureToken_claim_witness :
    ensureToken (Except.ok false) none (some (TimeoutField.val 10)) []
      = Except.error ErrCode.tokenTimeout ∧
    effTimeout none = 5000 :=
  ⟨(ensureToken_claim false none (some (TimeoutField.val 10)) []).1 rfl,
   (ensureToken_claim false none (some (TimeoutField.val 10)) []).2.2.1⟩

/-- C6 counterexample: the session signal never resolves within the
timeout, yet `ensureToken` rejects with `InvalidNonce`, not `TokenTimeout`:
the awaited session check itself rejected (e.g. a nonce-mismatch pass) and
its error propagates before the race is ever run. -/
theorem ensureToken_counterexample :
    ensureToken (Except.error ErrCode.invalidNonce) none none []
      = Except.error ErrCode.invalidNonce ∧
    ErrCode.invalidNonce ≠ ErrCode.tokenTimeout :=
  ⟨rfl, by decide⟩

/-- The module-level sequencing state of `userSessionExists`: the shared
in-flight continuation promise (named by id) and the last-check
timestamp. -/
structure SeqState where
  seq : Option Nat
  lastSessionCheck : Nat
deriving DecidableEq

/-- `userSessionExists` (src/index.js lines 139-151) as a transition on the
sequencing state.  `now` is the clock reading of this synchronous call --
both `Date.now()` readings of one synchronous execution see the same tick,
so `Date.now() - this.lastSessionCheck` is 0 just after the field was
assigned and the debounce window always applies; the chained else-branch
(which would serialize, never race, a new continuation after the settled
one) is dead under a single tick.  `freshId` names the promise a new
continuation invocation would produce.  Returns the promise handed to the
caller, the new state, and the number of continuation invocations
started. -/
def userSessionExistsStep (now : Nat) (g : SeqState) (freshId : Nat) : Nat × SeqState × Nat :=
  let g1 : SeqState := { g with lastSessionCheck := now }
  match g1.seq with
  | some p =>
    if now - g1.lastSessionCheck < 5 then (p, g1, 0)
    else (freshId, { g1 with seq := some freshId }, 1)
  | none => (freshId, { g1 with seq := some freshId }, 1)

/-- C2: from an idle state a first "check session" call starts exactly one
continuation and records its promise; a second call issued while that
continuation is in flight is handed the very same promise -- hence both
calls resolve to the same outcome -- and starts no further continuation,
so at most one continuation sequence (and at most one network exchange)
runs and no second, racing sequence ever starts. -/
theorem userSessionExists_coalesces (n1 n2 t id1 id2 : Nat) :
    (userSessionExistsStep n1 ⟨none, t⟩ id1).1 = id1 ∧
    (userSessionExistsStep n1 ⟨none, t⟩ id1).2.2 = 1 ∧
    (userSessionExistsStep n2 (userSessionExistsStep n1 ⟨none, t⟩ id1).2.1 id2).1
      = (userSessionExistsStep n1 ⟨none, t⟩ id1).1 ∧
    (userSessionExistsStep n2 (userSessionExistsStep n1 ⟨none, t⟩ id1).2.1 id2).2.2 = 0 := by
  simp [userSessionExistsStep]

/-- Arguments of `authenticate` (option strings collapse falsy values). -/
structure AuthArgs where
  connectionId : Option JStr
  tenantLookupIdentifier : Option JStr
  redirectUrl : Option JStr
  responseLocation : Option JStr
  flowType : Option JStr
  openType : Option JStr
  force : Bool
  multiAccount : Bool

/-- Observable effects of an `authenticate` call, in order. -/
inductive AuthEffect where
  | netPatchSession
  | netPostAuthentication
  | clearTokenStore
  | saveAuthRequest
  | navigate
deriving DecidableEq

/-- Environment of an `authenticate` call: the outcome and the observable
effects (network calls included) of the embedded `userSessionExists`
check, and the transport outcome of `POST /authentication`. -/
structure AuthEnv where
  sessionCheck : Except ErrCode Bool
  sessionEffects : List AuthEffect
  postAuth : Except HttpFail Json

/-- The responseLocation guard (src/index.js line 412): truthy and none of
cookie, query, none. -/
def invalidResponseLocation (rl : Option JStr) : Bool :=
  match rl with
  | none => false
  | some s =>
    decide (s ≠ []) && decide (s ≠ cs "cookie") && decide (s ≠ cs "query") && decide (s ≠ cs "none")

/-- The tail of `authenticate` after the session short-circuit
(src/index.js lines 422-461): reject with InvalidConnection when neither
identifier is truthy; otherwise clear the identity token, request an
authentication URL, persist the pending record and navigate, resurfacing
4xx transport errors as the provider's error code. -/
def authenticateCont (a : AuthArgs) (env : AuthEnv) (trace : List AuthEffect) :
    Except ErrCode Bool × List AuthEffect :=
  if ! truthyParam a.connectionId && ! truthyParam a.tenantLookupIdentifier then
    (Except.error ErrCode.invalidConnection, trace)
  else
    match env.postAuth with
    | Except.ok _ =>
      (Except.ok false,
        trace ++ [AuthEffect.clearTokenStore, AuthEffect.netPostAuthentication,
          AuthEffect.saveAuthRequest, AuthEffect.navigate])
    | Except.error f =>
      if 400 ≤ f.status ∧ f.status < 500 then
        (Except.error (ErrCode.providerError f.errorCode),
          trace ++ [AuthEffect.clearTokenStore, AuthEffect.netPostAuthentication])
      else
        (Except.error (ErrCode.httpFailure f),
          trace ++ [AuthEffect.clearTokenStore, AuthEffect.netPostAuthentication])

/-- `authenticate` (src/index.js lines 411-462): synchronous
responseLocation validation, then -- unless `force` or `multiAccount` --
the session check (which may itself reach the network and whose result
short-circuits or whose rejection propagates), and only then the
connection validation and the authentication request. -/
def authenticate (a : AuthArgs) (env : AuthEnv) : Except ErrCode Bool × List AuthEffect :=
  if invalidResponseLocation a.responseLocation then
    (Except.error ErrCode.invalidResponseLocation, [])
  else if ! a.force && ! a.multiAccount then
    match env.sessionCheck with
    | Except.error e => (Except.error e, env.sessionEffects)
    | Except.ok true => (Except.ok true, env.sessionEffects)
    | Except.ok false => authenticateCont a env env.sessionEffects
  else authenticateCont a env []

/-- C7 (amended): with a valid (or absent) responseLocation and NEITHER
connectionId nor tenantLookupIdentifier supplied, authenticate raises
InvalidConnection -- before any effect at all when `force` or
`multiAccount` is set, and otherwise only after the session check, whose
own effects (possibly a network exchange) have already run and whose
positive result returns true with no validation error at all.  Supplying
both identifiers is not rejected (no mutual-exclusion check exists). -/
theorem authenticate_invalidConnection_claim (a : AuthArgs) (env : AuthEnv)
    (hrl : invalidResponseLocation a.responseLocation = false)
    (hc : truthyParam a.connectionId = false)
    (ht : truthyParam a.tenantLookupIdentifier = false) :
    ((a.force || a.multiAccount) = true →
      authenticate a env = (Except.error ErrCode.invalidConnection, [])) ∧
    ((a.force || a.multiAccount) = false →
      (env.sessionCheck = Except.ok false →
        authenticate a env = (Except.error ErrCode.invalidConnection, env.sessionEffects)) ∧
      (env.sessionCheck = Except.ok true →
        authenticate a env = (Except.ok true, env.sessionEffects))) := by
  constructor
  · intro hf
    simp [authenticate, hrl, hf, authenticateCont, hc, ht]
    cases hfc : a.force <;> simp_all
  · intro hf
    have h1 : a.force = false := by
      cases hfc : a.force <;> simp_all
    have h2 : a.multiAccount = false := by
      cases hmc : a.multiAccount <;> simp_all
    constructor
    · intro hs
      simp [authenticate, hrl, h1, h2, hs, authenticateCont, hc, ht]
    · intro hs
      simp [authenticate, hrl, h1, h2, hs]

/-- C7 witness arguments: nothing supplied but a valid responseLocation,
with force set. -/
def w7Args : AuthArgs :=
  { connectionId := none, tenantLookupIdentifier := none, redirectUrl := none,
    responseLocation := some (cs "cookie"), flowType := none, openType := none,
    force := true, multiAccount := false }

/-- C7 environment reused by witness and counterexample. -/
def w7Env : AuthEnv :=
  { sessionCheck := Except.ok false, sessionEffects := [AuthEffect.netPatchSession],
    postAuth := Except.ok (Json.obj []) }

/-- C7 witness: the amended theorem at a concrete forced call with neither
identifier: InvalidConnection with no effect. -/
theorem authenticate_invalidConnection_claim_witness :
    authenticate w7Args w7Env = (Except.error ErrCode.invalidConnection, []) :=
  (authenticate_invalidConnection_claim w7Args w7Env rfl rfl rfl).1 rfl

/-- C7 counterexample arguments: both identifiers supplied (not exactly
one), valid responseLocation, forced. -/
def c7Args : AuthArgs :=
  { connectionId := some (cs "c1"), tenantLookupIdentifier := some (cs "t1"),
    redirectUrl := none, responseLocation := some (cs "cookie"), flowType := none,
    openType := none, force := true, multiAccount := false }

/-- C7 counterexample: supplying BOTH connectionId and
tenantLookupIdentifier (hence not exactly one) with a valid
responseLocation raises no InvalidConnection at all -- the call proceeds
to the network and navigation. -/
theorem authenticate_invalidConnection_counterexample :
    invalidResponseLocation c7Args.responseLocation = false ∧
    truthyParam c7Args.connectionId = true ∧
    truthyParam c7Args.tenantLookupIdentifier = true ∧
    (authenticate c7Args w7Env).1 = Except.ok false :=
  ⟨rfl, rfl, rfl, rfl⟩

theorem splitOnChar_no_sep (sep : Char) (a : JStr) (ha : sep ∉ a) :
    splitOnChar sep a = [a] := by
  induction a with
  | nil => rfl
  | cons c t ih =>
    have hc : ¬ c = sep := fun h => ha (h ▸ List.mem_cons_self c t)
    have ht : sep ∉ t := fun h => ha (List.mem_cons_of_mem c h)
    simp [splitOnChar, hc, ih ht]

theorem splitOnChar_append_cons (sep : Char) (a b : JStr) (ha : sep ∉ a) :
    splitOnChar sep (a ++ sep :: b) = a :: splitOnChar sep b := by
  induction a with
  | nil => simp [splitOnChar]
  | cons c t ih =>
    have hc : ¬ c = sep := fun h => ha (h ▸ List.mem_cons_self c t)
    have ht : sep ∉ t := fun h => ha (List.mem_cons_of_mem c h)
    simp [splitOnChar, hc, ih ht]

/-- C8: `decode` and `decodeFull` are total (the JS try/catch maps every
failure to null, modelled by `Option`), return none on every malformed
input and the parsed claims exactly on a well-formed token: a dot-free
input (no payload segment) gives none for both; on a token
`h.p` or `h.p.r` (header and payload dot-free, the rest arbitrary) the
decode result is exactly the base64url decode and JSON parse of the
payload -- none when the base64 or the structured data is invalid, the
claims otherwise -- and `decodeFull` additionally requires the header
segment to decode and parse. -/
theorem jwtDecode_claim :
    (∀ t : JStr, ('.' ∉ t) → jwtDecodeStr t = none ∧ jwtDecodeFullStr t = none) ∧
    (∀ h p r : JStr, ('.' ∉ h) → ('.' ∉ p) →
      (jwtDecodeStr (h ++ '.' :: (p ++ '.' :: r))
          = (base64UrlDecode p).bind (fun pl => jsonParse pl)) ∧
      (jwtDecodeStr (h ++ '.' :: p) = (base64UrlDecode p).bind (fun pl => jsonParse pl)) ∧
      (jwtDecodeFullStr (h ++ '.' :: (p ++ '.' :: r))
          = match (base64UrlDecode h).bind (fun hl => jsonParse hl),
                  (base64UrlDecode p).bind (fun pl => jsonParse pl) with
            | some hj, some pj => some (hj, pj)
            | _, _ => none)) := by
  constructor
  · intro t ht
    by_cases h0 : t = []
    · subst h0
      exact ⟨rfl, rfl⟩
    · constructor
      · rw [jwtDecodeStr, if_neg h0, splitOnChar_no_sep '.' t ht]
        rfl
      · rw [jwtDecodeFullStr, if_neg h0, splitOnChar_no_sep '.' t ht]
        rfl
  · intro h p r hh hp
    have hs : splitOnChar '.' (h ++ '.' :: (p ++ '.' :: r)) = h :: p :: splitOnChar '.' r := by
      rw [splitOnChar_append_cons '.' h _ hh, splitOnChar_append_cons '.' p r hp]
    have hs2 : splitOnChar '.' (h ++ '.' :: p) = [h, p] := by
      rw [splitOnChar_append_cons '.' h p hh, splitOnChar_no_sep '.' p hp]
    have hne1 : h ++ '.' :: (p ++ '.' :: r) ≠ [] := by simp
    have hne2 : h ++ '.' :: p ≠ [] := by simp
    refine ⟨?_, ?_, ?_⟩
    · rw [jwtDecodeStr, if_neg hne1, hs]
      cases hb : base64UrlDecode p <;> simp [List.get?, hb]
    · rw [jwtDecodeStr, if_neg hne2, hs2]
      cases hb : base64UrlDecode p <;> simp [List.get?, hb]
    · rw [jwtDecodeFullStr, if_neg hne1, hs]
      cases hbh : base64UrlDecode h <;> cases hbp : base64UrlDecode p <;>
        simp [List.get?, hbh, hbp, Option.bind]

/-- C8 witness: the theorem applied at concrete malformed and well-formed
tokens -- a non-token string decodes to none, and a complete token yields
the parse of its decoded payload. -/
theorem jwtDecode_claim_witness :
    jwtDecodeStr (cs "notatoken") = none ∧
    jwtDecodeFullStr (cs "notatoken") = none ∧
    jwtDecodeStr (cs "h" ++ '.' :: (cs "NQ" ++ '.' :: cs "s"))
      = (base64UrlDecode (cs "NQ")).bind (fun pl => jsonParse pl) := by
  have h1 := jwtDecode_claim.1 (cs "notatoken") (by decide)
  have h2 := (jwtDecode_claim.2 (cs "h") (cs "NQ") (cs "s") (by decide) (by decide)).1
  exact ⟨h1.1, h1.2, h2⟩
